import Mathlib

/-!
# Pastebin-lite: verification of the expiry-and-view-accounting core

Shallow embedding of the core of the Pastebin-lite repository
(`src/lib/time.ts`, `src/lib/paste-service.ts`, `src/app/p/[id]/page.tsx`,
the API route handlers), with theorems settling the spec claims.

Modelling conventions:
* A JavaScript `Date` holding a valid instant is modelled as an `Int`
  (milliseconds since the Unix epoch, as returned by `Date.getTime()`);
  a possibly-Invalid `Date` (time value `NaN`) is modelled as `Option Int`
  with `none` standing for the Invalid Date.
* The Prisma store is keyed by `id`; a `fetchPaste` / `getPasteContent`
  transaction reads and writes only the single row with the queried `id`
  (`findUnique` / `update` with `where: { id }`), so the state acted on by
  one call is that single row: `Option Paste` (`none` = no such record).
* `prisma.$transaction` makes each call one atomic step (the design
  document relies on the database's serializable isolation), so a set of
  concurrent calls is modelled as an arbitrary serialization: a list of
  calls executed in sequence, each with its own `now`.
-/

/-- The persisted `Paste` row (Prisma model `Paste` in the design document):
`id String @id @default(cuid())`, `content String`,
`createdAt DateTime @default(now())`, `expiresAt DateTime?`,
`maxViews Int?`, `viewCount Int @default(0)`.
The opaque `id` is the lookup key and is kept outside the row model
(the state is the row at the queried id). -/
structure Paste where
  content : String
  createdAt : Int
  expiresAt : Option Int
  maxViews : Option Int
  viewCount : Int
  deriving Repr, DecidableEq

/-- Shape of `ValidatedCreatePasteInput` from the validation layer
(`src/lib/validation.ts`, staged in `src/unnamed/part_003`):
`{ content: string; ttl_seconds?: number; max_views?: number }`.
Its producer `validateCreatePaste` admits `ttl_seconds` and `max_views`
only when `isPositiveInteger` holds — an integer `>= 1` — so validated
values reaching the service satisfy that bound when present. -/
structure ValidatedCreatePasteInput where
  content : String
  ttl_seconds : Option Int
  max_views : Option Int
  deriving Repr, DecidableEq

/-- Model of `calculateExpiresAt` from `src/lib/time.ts`:
`new Date(now.getTime() + ttlSeconds * 1000)`. -/
def calculateExpiresAt (ttlSeconds : Int) (now : Int) : Int :=
  now + ttlSeconds * 1000

/-- Model of `isPasteExpired` from `src/lib/time.ts`, for a valid instant `now`:
`if (!expiresAt) return false; return now >= expiresAt;`
(`null` is falsy; a stored `DateTime` is a valid instant). -/
def isPasteExpired (expiresAt : Option Int) (now : Int) : Bool :=
  match expiresAt with
  | none => false
  | some e => decide (now ≥ e)

/-- The view-exhaustion test inlined in both `fetchPaste` and
`getPasteContent` (`src/lib/paste-service.ts`):
`paste.maxViews !== null && paste.viewCount >= paste.maxViews`. -/
def viewLimitReached (paste : Paste) : Bool :=
  match paste.maxViews with
  | none => false
  | some m => decide (paste.viewCount ≥ m)

/-- Shape of `PasteFetchResponse` from `src/lib/paste-service.ts`:
`{ content: string; remaining_views: number | null; expires_at: string | null }`.
`expires_at` is the stored instant (the source serializes it with
`toISOString()`, a formatting step with no information change). -/
structure PasteFetchResponse where
  content : String
  remaining_views : Option Int
  expires_at : Option Int
  deriving Repr, DecidableEq

/-- The `createdAt` value persisted by `prisma.paste.create`.
Modelled from the spec: `prisma/schema.prisma` is absent from the sources;
the design document gives `createdAt DateTime @default(now())`, so the
persisted `createdAt` is the database clock instant at insert time
(`dbNow`), independent of the `now` argument of `createPaste`. -/
def insertedCreatedAt (dbNow : Int) : Int := dbNow

/-- Model of `createPaste` from `src/lib/paste-service.ts`, restricted to the
persisted record (the returned `{id, url}` pair carries no further state):
`expiresAt = input.ttl_seconds ? calculateExpiresAt(input.ttl_seconds, now) : null`
(a number is falsy exactly when it is `0` or `NaN`; validated input is an
integer); `maxViews = input.max_views ?? null`; `viewCount` defaults to 0;
`createdAt` defaults to the database clock `dbNow` (`insertedCreatedAt`). -/
def createPaste (input : ValidatedCreatePasteInput) (now : Int) (dbNow : Int) : Paste :=
  let expiresAt : Option Int :=
    match input.ttl_seconds with
    | some t => if t = 0 then none else some (calculateExpiresAt t now)
    | none => none
  { content := input.content
    createdAt := insertedCreatedAt dbNow
    expiresAt := expiresAt
    maxViews := input.max_views
    viewCount := 0 }

/-- Model of `fetchPaste` from `src/lib/paste-service.ts`: one atomic transaction on
the row at the queried id. Returns the response (`none` = unavailable,
mapped to 404 by the route) and the post-state of the row.
Source order: missing → `null`; `isPasteExpired` → `null`;
`maxViews !== null && viewCount >= maxViews` → `null`; otherwise
`update … viewCount: { increment: 1 }`, then
`remaining_views = maxViews === null ? null : Math.max(0, maxViews - viewCount)`
computed from the updated row. -/
def fetchPaste (st : Option Paste) (now : Int) :
    Option PasteFetchResponse × Option Paste :=
  match st with
  | none => (none, none)
  | some paste =>
    if isPasteExpired paste.expiresAt now then (none, some paste)
    else if viewLimitReached paste then (none, some paste)
    else
      let updatedPaste : Paste := { paste with viewCount := paste.viewCount + 1 }
      let remaining_views : Option Int :=
        match updatedPaste.maxViews with
        | none => none
        | some m => some (max 0 (m - updatedPaste.viewCount))
      (some { content := updatedPaste.content
              remaining_views := remaining_views
              expires_at := updatedPaste.expiresAt },
       some updatedPaste)

/-- Model of `getPasteContent` from `src/lib/paste-service.ts`: the HTML-view
consume path. The source duplicates the transaction of `fetchPaste` but
returns only `updatedPaste.content`. -/
def getPasteContent (st : Option Paste) (now : Int) :
    Option String × Option Paste :=
  match st with
  | none => (none, none)
  | some paste =>
    if isPasteExpired paste.expiresAt now then (none, some paste)
    else if viewLimitReached paste then (none, some paste)
    else
      let updatedPaste : Paste := { paste with viewCount := paste.viewCount + 1 }
      (some updatedPaste.content, some updatedPaste)

/-- States of the row reachable from a start state by any sequence of
consume calls (`fetchPaste` from the API route, `getPasteContent` from the
HTML page), each at an arbitrary instant. These are the only mutators of a
row after creation. -/
inductive Reachable : Option Paste → Option Paste → Prop
  | refl (s : Option Paste) : Reachable s s
  | fetch (now : Int) {s t : Option Paste} :
      Reachable s t → Reachable s (fetchPaste t now).2
  | getContent (now : Int) {s t : Option Paste} :
      Reachable s t → Reachable s (getPasteContent t now).2

/-- Serialization of a batch of `consumeView`
(`fetchPaste`) calls against one row, the i-th call evaluated at `nows[i]`;
returns the list of outcomes and the final row state. -/
def runConsumes (st : Option Paste) (nows : List Int) :
    List (Option PasteFetchResponse) × Option Paste :=
  match nows with
  | [] => ([], st)
  | n :: rest =>
    let step := fetchPaste st n
    let restRun := runConsumes step.2 rest
    (step.1 :: restRun.1, restRun.2)

/-- Digit-prefix accumulator of JavaScript `parseInt(s, 10)` as used by `getCurrentTime`:
skip leading whitespace, read an optional sign, then the longest prefix of
decimal digits; `NaN` (modelled `none`) when that prefix is empty. -/
def parseDigits : List Char → Option Nat → Option Nat
  | [], acc => acc
  | c :: cs, acc =>
    if c.isDigit then parseDigits cs (some (acc.getD 0 * 10 + (c.toNat - 48)))
    else acc

/-- See `parseDigits`; `none` models `NaN`; `parseInt` itself skips
leading whitespace before the optional sign. -/
def parseIntDec (s : String) : Option Int :=
  match s.data.dropWhile Char.isWhitespace with
  | '-' :: rest => (parseDigits rest none).map (fun n => -(n : Int))
  | '+' :: rest => (parseDigits rest none).map (fun n => (n : Int))
  | cs => (parseDigits cs none).map (fun n => (n : Int))

/-- Model of `new Date(ms)` for a numeric time value: an Invalid Date (`none`) when
the argument is `NaN` or outside the ±8.64e15 ms ECMAScript time range. -/
def jsDateOfMs : Option Int → Option Int
  | none => none
  | some v => if v.natAbs ≤ 8640000000000000 then some v else none

/-- Model of `getCurrentTime` from `src/lib/time.ts`:
`testMode` models `process.env.TEST_MODE` (a string or undefined),
`xTestNowMs` models `headers.get('x-test-now-ms')` (a string or null),
`wallClockMs` is the wall-clock instant of `new Date()`.
`if (process.env.TEST_MODE === '1') { const t = headers.get('x-test-now-ms');
if (t) return new Date(parseInt(t, 10)); } return new Date();`
(the empty string is falsy). The result is a possibly-Invalid Date. -/
def getCurrentTime (testMode : Option String) (xTestNowMs : Option String)
    (wallClockMs : Int) : Option Int :=
  if testMode = some "1" then
    match xTestNowMs with
    | some s => if s = "" then some wallClockMs else jsDateOfMs (parseIntDec s)
    | none => some wallClockMs
  else some wallClockMs

/-- Model of `isPasteExpired` from `src/lib/time.ts` at JavaScript `Date` semantics,
where `now` may be an Invalid Date (`none`, time value `NaN`): a `Date`
object is truthy, and `now >= expiresAt` compares the time values, any
comparison with `NaN` being false. Agrees with `isPasteExpired` whenever
`now` is a valid instant (`isPasteExpiredDate_valid`). -/
def isPasteExpiredDate (expiresAt : Option Int) (now : Option Int) : Bool :=
  match expiresAt with
  | none => false
  | some e =>
    match now with
    | none => false
    | some n => decide (n ≥ e)

/-- Model of `PastePage` from `src/app/p/[id]/page.tsx`, as a state transformer on
the row at the rendered id: the component receives the request context
(`testMode`, the `x-test-now-ms` header value, the wall clock) but builds
`now` as `new Date()` — the real system time — and calls
`getPasteContent(id, now)`; `null` content becomes `notFound()`. -/
def pastePage (_testMode : Option String) (_xTestNowMs : Option String)
    (wallClockMs : Int) (st : Option Paste) : Option String × Option Paste :=
  let now : Int := wallClockMs
  getPasteContent st now

/-- On a valid instant the `Date`-level expiry test is the core one. -/
theorem isPasteExpiredDate_valid (e : Option Int) (n : Int) :
    isPasteExpiredDate e (some n) = isPasteExpired e n := by
  cases e <;> rfl

/-- C5: the expiry decision is false when `expiresAt` is absent; for
`expiresAt = T` it is true exactly when `now ≥ T` (the boundary instant
counts as expired), so the paste is available to time-expiry exactly for
`now < T`. -/
theorem isPasteExpired_characterization (T now : Int) :
    isPasteExpired none now = false ∧
    (isPasteExpired (some T) now = true ↔ now ≥ T) ∧
    (isPasteExpired (some T) now = false ↔ now < T) := by
  refine ⟨rfl, ?_, ?_⟩ <;> simp [isPasteExpired]

/-- C3: when the row is absent, time-expired, or view-exhausted, both
consume paths return the unavailable outcome (`null`) and leave the stored
row — in particular its `viewCount` — completely unchanged. -/
theorem unavailable_leaves_row_unchanged (st : Option Paste) (now : Int)
    (h : st = none ∨ ∃ p, st = some p ∧
      (isPasteExpired p.expiresAt now = true ∨ viewLimitReached p = true)) :
    fetchPaste st now = (none, st) ∧ getPasteContent st now = (none, st) := by
  rcases h with rfl | ⟨p, rfl, h | h⟩
  · exact ⟨rfl, rfl⟩
  · simp [fetchPaste, getPasteContent, h]
  · cases he : isPasteExpired p.expiresAt now <;>
      simp [fetchPaste, getPasteContent, he, h]

/-- Witness for C3: a paste whose `expiresAt` equals `now` (the boundary
instant) is refused and not mutated. -/
theorem unavailable_leaves_row_unchanged_witness :
    fetchPaste (some (⟨"X", 0, some 10, none, 0⟩ : Paste)) 10 =
      (none, some (⟨"X", 0, some 10, none, 0⟩ : Paste)) ∧
    getPasteContent (some (⟨"X", 0, some 10, none, 0⟩ : Paste)) 10 =
      (none, some (⟨"X", 0, some 10, none, 0⟩ : Paste)) :=
  unavailable_leaves_row_unchanged _ 10
    (Or.inr ⟨_, rfl, Or.inl (by decide)⟩)

/-- C4: on an available row the consume transaction increments `viewCount`
by exactly 1 and returns the stored content, the stored `expiresAt`, and
`remaining_views` absent when `maxViews` is absent and otherwise
`max 0 (maxViews - newViewCount)`; any present `remaining_views` is
non-negative. -/
theorem available_consumes_exactly_one (p : Paste) (now : Int)
    (he : isPasteExpired p.expiresAt now = false)
    (hv : viewLimitReached p = false) :
    fetchPaste (some p) now =
      (some { content := p.content
              remaining_views := p.maxViews.map (fun m => max 0 (m - (p.viewCount + 1)))
              expires_at := p.expiresAt },
       some { p with viewCount := p.viewCount + 1 }) ∧
    (∀ r : Int,
      (p.maxViews.map (fun m => max 0 (m - (p.viewCount + 1)))) = some r → 0 ≤ r) := by
  constructor
  · cases hm : p.maxViews <;> simp [fetchPaste, he, hv, hm]
  · intro r hr
    cases hm : p.maxViews with
    | none => simp [hm] at hr
    | some m =>
      simp [hm] at hr
      omega

/-- Witness for C4: a fresh paste with `maxViews = 3` and no TTL is
consumed, reaching `viewCount = 1` and `remaining_views = 2`. -/
theorem available_consumes_exactly_one_witness :
    fetchPaste (some (⟨"h", 0, none, some 3, 0⟩ : Paste)) 5 =
      (some (⟨"h", some 2, none⟩ : PasteFetchResponse),
       some (⟨"h", 0, none, some 3, 1⟩ : Paste)) := by
  have h := available_consumes_exactly_one
    (⟨"h", 0, none, some 3, 0⟩ : Paste) 5 (by decide) (by decide)
  rw [h.1]
  decide

/-- C7: the HTML consume path is the API consume path restricted to the
content field: same availability decision, same returned content, and the
identical state transition — `viewCount` incremented by exactly 1 on
success, the row unchanged otherwise. -/
theorem getPasteContent_refines_fetchPaste (st : Option Paste) (now : Int) :
    (getPasteContent st now).1 = ((fetchPaste st now).1).map PasteFetchResponse.content ∧
    (getPasteContent st now).2 = (fetchPaste st now).2 ∧
    (getPasteContent st now).2 =
      (if ((getPasteContent st now).1).isSome
       then st.map (fun p => { p with viewCount := p.viewCount + 1 })
       else st) := by
  cases st with
  | none => exact ⟨rfl, rfl, rfl⟩
  | some p =>
    by_cases he : isPasteExpired p.expiresAt now <;>
      by_cases hv : viewLimitReached p <;>
        simp [getPasteContent, fetchPaste, he, hv]

/-- C8: outside deterministic mode (`TEST_MODE ≠ '1'`) the clock ignores
any caller-supplied `x-test-now-ms` value: two requests with arbitrary
different override headers evaluated at the same wall-clock instant get
that same wall-clock instant. -/
theorem real_mode_ignores_override (testMode : Option String)
    (h : testMode ≠ some "1") (h1 h2 : Option String) (wall : Int) :
    getCurrentTime testMode h1 wall = getCurrentTime testMode h2 wall ∧
    getCurrentTime testMode h1 wall = some wall := by
  simp [getCurrentTime, h]

/-- Witness for C8: with `TEST_MODE` unset, overrides `123` and `999`
both yield the wall clock `7`. -/
theorem real_mode_ignores_override_witness :
    getCurrentTime none (some "123") 7 = getCurrentTime none (some "999") 7 ∧
    getCurrentTime none (some "123") 7 = some 7 :=
  real_mode_ignores_override none (by simp) (some "123") (some "999") 7

/-- C10: the HTML paste page builds `now` from the real wall clock and
never reads the override header, so its outcome and its view-count
consumption are independent of `TEST_MODE` and of any `x-test-now-ms`
value, and equal the single consume path evaluated at the wall clock. -/
theorem pastePage_ignores_override (m m' h1 h2 : Option String)
    (wall : Int) (st : Option Paste) :
    pastePage m h1 wall st = pastePage m' h2 wall st ∧
    pastePage m h1 wall st = getPasteContent st wall :=
  ⟨rfl, rfl⟩

/-- Both consume paths drive the row through the same state transition. -/
theorem getPasteContent_snd_eq (st : Option Paste) (now : Int) :
    (getPasteContent st now).2 = (fetchPaste st now).2 := by
  cases st with
  | none => rfl
  | some p =>
    by_cases he : isPasteExpired p.expiresAt now <;>
      by_cases hv : viewLimitReached p <;>
        simp [getPasteContent, fetchPaste, he, hv]

/-- One `fetchPaste` step preserves the per-row invariant: `maxViews` is
unchanged and `viewCount` stays within `[0, M]`. -/
theorem fetchPaste_preserves_inv (M : Int) (t : Option Paste) (now : Int)
    (h : ∀ p, t = some p → p.maxViews = some M ∧ 0 ≤ p.viewCount ∧ p.viewCount ≤ M) :
    ∀ p, (fetchPaste t now).2 = some p →
      p.maxViews = some M ∧ 0 ≤ p.viewCount ∧ p.viewCount ≤ M := by
  intro p hp
  cases t with
  | none => simp [fetchPaste] at hp
  | some q =>
    obtain ⟨hm, h0, hMq⟩ := h q rfl
    by_cases he : isPasteExpired q.expiresAt now
    · simp [fetchPaste, he] at hp
      exact hp ▸ ⟨hm, h0, hMq⟩
    · by_cases hv : viewLimitReached q
      · simp [fetchPaste, he, hv] at hp
        exact hp ▸ ⟨hm, h0, hMq⟩
      · have hlt : q.viewCount < M := by
          simp [viewLimitReached, hm] at hv
          omega
        simp [fetchPaste, he, hv] at hp
        refine hp ▸ ⟨?_, ?_, ?_⟩ <;> simp [hm] <;> omega

/-- Every reachable row state satisfies the per-row invariant. -/
theorem reachable_preserves_inv (M : Int) {s t : Option Paste}
    (hr : Reachable s t)
    (h : ∀ p, s = some p → p.maxViews = some M ∧ 0 ≤ p.viewCount ∧ p.viewCount ≤ M) :
    ∀ p, t = some p → p.maxViews = some M ∧ 0 ≤ p.viewCount ∧ p.viewCount ≤ M := by
  induction hr with
  | refl s => exact h
  | fetch now hr ih => exact fetchPaste_preserves_inv M _ now (ih h)
  | getContent now hr ih =>
    intro p hp
    rw [getPasteContent_snd_eq] at hp
    exact fetchPaste_preserves_inv M _ now (ih h) p hp

/-- C1: a paste created with `maxViews = M` (validated, so `M ≥ 1`) keeps
`0 ≤ viewCount ≤ M` in every state reachable by any sequence of consume
calls (`fetchPaste` / `getPasteContent`), at arbitrary instants. -/
theorem viewCount_bounded_reachable (input : ValidatedCreatePasteInput)
    (now dbNow M : Int) (hM : input.max_views = some M) (hM1 : 1 ≤ M)
    (t : Option Paste) (hr : Reachable (some (createPaste input now dbNow)) t)
    (p : Paste) (hp : t = some p) :
    0 ≤ p.viewCount ∧ p.viewCount ≤ M := by
  have h0 : ∀ q, (some (createPaste input now dbNow) : Option Paste) = some q →
      q.maxViews = some M ∧ 0 ≤ q.viewCount ∧ q.viewCount ≤ M := by
    intro q hq
    injection hq with hq
    subst hq
    refine ⟨by simp [createPaste, hM], by simp [createPaste], ?_⟩
    simp [createPaste]
    omega
  exact ((reachable_preserves_inv M hr h0) p hp).2

/-- Witness for C1: after one consume of a paste with `maxViews = 2`, the
reached row has `viewCount = 1` and `0 ≤ 1 ≤ 2`. -/
theorem viewCount_bounded_reachable_witness :
    0 ≤ ((⟨"x", 0, none, some 2, 1⟩ : Paste)).viewCount ∧
    ((⟨"x", 0, none, some 2, 1⟩ : Paste)).viewCount ≤ 2 :=
  viewCount_bounded_reachable ⟨"x", none, some 2⟩ 0 0 2 rfl (by decide)
    (fetchPaste (some (createPaste ⟨"x", none, some 2⟩ 0 0)) 5).2
    (Reachable.fetch 5 (Reachable.refl _))
    ⟨"x", 0, none, some 2, 1⟩ (by decide)

/-- Each outcome in a batch is either `Consumed` or not, so the two filter
counts partition the outcome list. -/
theorem length_filter_isNone_add {α : Type} (l : List (Option α)) :
    (l.filter Option.isNone).length + (l.filter Option.isSome).length = l.length := by
  induction l with
  | nil => rfl
  | cons a l ih => cases a <;> simp [List.filter_cons] <;> omega

/-- Closed form of a serialized batch of `consumeView` calls on a row with
`maxViews = M`, none of the calls time-expired: the number of `Consumed`
outcomes is `min N (max (M - viewCount) 0)` and the final `viewCount` adds
exactly that number. -/
theorem runConsumes_closed (nows : List Int) (p : Paste) (M : Int)
    (hM : p.maxViews = some M)
    (htime : ∀ n ∈ nows, isPasteExpired p.expiresAt n = false) :
    (runConsumes (some p) nows).1.length = nows.length ∧
    (((runConsumes (some p) nows).1.filter Option.isSome).length : Int)
        = min (nows.length : Int) (max (M - p.viewCount) 0) ∧
    (runConsumes (some p) nows).2
        = some { p with viewCount :=
            p.viewCount + min ((nows.length : Int)) (max (M - p.viewCount) 0) } := by
  induction nows generalizing p with
  | nil =>
    obtain ⟨c, ca, e, m, v⟩ := p
    subst hM
    refine ⟨rfl, ?_, ?_⟩
    · simp only [runConsumes, List.filter_nil, List.length_nil, Nat.cast_zero]
      omega
    · simp [runConsumes, Paste.mk.injEq]
  | cons n rest ih =>
    obtain ⟨c, ca, e, m, v⟩ := p
    subst hM
    have he : isPasteExpired e n = false := htime n (List.mem_cons_self n rest)
    have htr : ∀ x ∈ rest, isPasteExpired e x = false :=
      fun x hx => htime x (List.mem_cons_of_mem n hx)
    by_cases hv : v ≥ M
    · have hlim : viewLimitReached ⟨c, ca, e, some M, v⟩ = true := by
        simp [viewLimitReached]; omega
      obtain ⟨ih1, ih2, ih3⟩ := ih ⟨c, ca, e, some M, v⟩ rfl htr
      refine ⟨?_, ?_, ?_⟩ <;>
        simp [runConsumes, fetchPaste, he, hlim, ih1, ih2, ih3, Paste.mk.injEq] <;>
        omega
    · have hlim : viewLimitReached ⟨c, ca, e, some M, v⟩ = false := by
        simp [viewLimitReached]; omega
      obtain ⟨ih1, ih2, ih3⟩ := ih ⟨c, ca, e, some M, v + 1⟩ rfl htr
      refine ⟨?_, ?_, ?_⟩ <;>
        simp [runConsumes, fetchPaste, he, hlim, ih1, ih2, ih3, Paste.mk.injEq] <;>
        omega

/-- C2: concurrent `consumeView` calls are serialized by the per-id atomic
transaction; for any serialization of `N` calls against a fresh paste with
`maxViews = M` (validated, `M ≥ 1`), none of them time-expired, exactly
`min N M` calls return `Consumed`, the other `N - min N M` return
`Unavailable`, the final `viewCount` equals `min N M`, and after every
prefix of the serialization (every transient point) `viewCount ≤ M`. -/
theorem batch_admission_count (input : ValidatedCreatePasteInput)
    (now dbNow M : Int) (nows : List Int)
    (hM : input.max_views = some M) (hM1 : 1 ≤ M)
    (htime : ∀ n ∈ nows,
      isPasteExpired (createPaste input now dbNow).expiresAt n = false) :
    ((((runConsumes (some (createPaste input now dbNow)) nows).1.filter
        Option.isSome).length : Int) = min (nows.length : Int) M) ∧
    ((((runConsumes (some (createPaste input now dbNow)) nows).1.filter
        Option.isNone).length : Int)
      = (nows.length : Int) - min (nows.length : Int) M) ∧
    (∃ q, (runConsumes (some (createPaste input now dbNow)) nows).2 = some q ∧
      q.viewCount = min (nows.length : Int) M) ∧
    (∀ pre suf, nows = pre ++ suf →
      ∃ q, (runConsumes (some (createPaste input now dbNow)) pre).2 = some q ∧
        q.viewCount ≤ M) := by
  have hMv : (createPaste input now dbNow).maxViews = some M := by
    simp [createPaste, hM]
  have hvc : (createPaste input now dbNow).viewCount = 0 := rfl
  obtain ⟨h1, h2, h3⟩ := runConsumes_closed nows (createPaste input now dbNow) M hMv htime
  have hmm : max (M - (createPaste input now dbNow).viewCount) 0 = M := by
    rw [hvc]; omega
  refine ⟨?_, ?_, ?_, ?_⟩
  · rw [h2, hmm]
  · have hpart := length_filter_isNone_add (runConsumes (some (createPaste input now dbNow)) nows).1
    rw [hmm] at h2
    omega
  · refine ⟨_, h3, ?_⟩
    simp [hvc, hmm]
    omega
  · intro pre suf hps
    have htpre : ∀ n ∈ pre, isPasteExpired (createPaste input now dbNow).expiresAt n = false := by
      intro x hx
      exact htime x (hps ▸ List.mem_append_left suf hx)
    obtain ⟨_, _, g3⟩ := runConsumes_closed pre (createPaste input now dbNow) M hMv htpre
    refine ⟨_, g3, ?_⟩
    simp [hvc, hmm]
    omega

/-- Witness for C2: three calls against a fresh paste with `maxViews = 2`
and no TTL — two `Consumed`, one `Unavailable`, final `viewCount = 2`. -/
theorem batch_admission_count_witness :
    ((((runConsumes (some (createPaste ⟨"w", none, some 2⟩ 0 0)) [1, 2, 3]).1.filter
        Option.isSome).length : Int) = min ((3 : Nat) : Int) 2) ∧
    ((((runConsumes (some (createPaste ⟨"w", none, some 2⟩ 0 0)) [1, 2, 3]).1.filter
        Option.isNone).length : Int) = ((3 : Nat) : Int) - min ((3 : Nat) : Int) 2) ∧
    (∃ q, (runConsumes (some (createPaste ⟨"w", none, some 2⟩ 0 0)) [1, 2, 3]).2 = some q ∧
      q.viewCount = min ((3 : Nat) : Int) 2) ∧
    (∀ pre suf, [1, 2, 3] = pre ++ suf →
      ∃ q, (runConsumes (some (createPaste ⟨"w", none, some 2⟩ 0 0)) pre).2 = some q ∧
        q.viewCount ≤ 2) :=
  batch_admission_count ⟨"w", none, some 2⟩ 0 0 2 [1, 2, 3] rfl (by decide)
    (by intro x hx; rfl)

/-- Counterexample for C6: `createPaste` supplies no `createdAt` to
`prisma.paste.create`, so the persisted `createdAt` is the database
default `now()` (the DB clock), not the `now` argument. With supplied
`now = 0`, DB clock `5000` and `ttl_seconds = 1`, the persisted
`createdAt` is `5000 ≠ 0` and `expiresAt = 1000 ≠ createdAt + 1·1000`. -/
theorem createdAt_not_from_supplied_now :
    (createPaste ⟨"x", some 1, none⟩ 0 5000).createdAt ≠ 0 ∧
    (createPaste ⟨"x", some 1, none⟩ 0 5000).expiresAt ≠
      some ((createPaste ⟨"x", some 1, none⟩ 0 5000).createdAt + 1 * 1000) := by
  decide

/-- C6 (amended): the persisted `createdAt` equals the database clock at
insert (`insertedCreatedAt dbNow`, the schema default `now()`), while
`expiresAt` is computed from the `now` value supplied to the call:
`expiresAt = now + ttlSeconds·1000` when `ttlSeconds` is present
(validated, `≥ 1`); consequently `expiresAt = createdAt + ttlSeconds·1000`
holds exactly when the DB clock agrees with the supplied `now`. -/
theorem create_sets_fields_from_clocks (input : ValidatedCreatePasteInput)
    (now dbNow t : Int) (ht : input.ttl_seconds = some t) (ht1 : 1 ≤ t) :
    (createPaste input now dbNow).createdAt = insertedCreatedAt dbNow ∧
    (createPaste input now dbNow).expiresAt = some (calculateExpiresAt t now) ∧
    (dbNow = now →
      (createPaste input now dbNow).expiresAt =
        some ((createPaste input now dbNow).createdAt + t * 1000)) := by
  have hne : t ≠ 0 := by omega
  refine ⟨rfl, ?_, ?_⟩
  · simp [createPaste, ht, hne]
  · intro h
    subst h
    simp [createPaste, ht, hne, insertedCreatedAt, calculateExpiresAt]

/-- Witness for C6 (amended): `ttl_seconds = 60`, supplied `now = 100`,
DB clock `100`: `createdAt = 100`, `expiresAt = 60100`. -/
theorem create_sets_fields_from_clocks_witness :
    (createPaste ⟨"y", some 60, none⟩ 100 100).createdAt = insertedCreatedAt 100 ∧
    (createPaste ⟨"y", some 60, none⟩ 100 100).expiresAt = some (calculateExpiresAt 60 100) ∧
    ((100 : Int) = 100 →
      (createPaste ⟨"y", some 60, none⟩ 100 100).expiresAt =
        some ((createPaste ⟨"y", some 60, none⟩ 100 100).createdAt + 60 * 1000)) :=
  create_sets_fields_from_clocks ⟨"y", some 60, none⟩ 100 100 60 rfl (by decide)

/-- Counterexample for C9: in deterministic mode the malformed override
`x-test-now-ms: abc` is not rejected anywhere — `getCurrentTime` returns
`new Date(parseInt("abc", 10))`, an Invalid Date (`none`), and that value
is what the route hands to the core, where the expiry computation runs on
it (every `NaN` comparison is false, so even a paste expired at the epoch
is judged not time-expired). -/
theorem malformed_override_reaches_core :
    getCurrentTime (some "1") (some "abc") 0 = none ∧
    isPasteExpiredDate (some 0) (getCurrentTime (some "1") (some "abc") 0) = false := by
  decide

/-- C9 (amended): in deterministic mode a truthy override value with no
parseable leading decimal integer is not rejected upstream: the clock
returns an Invalid Date (`none`) which reaches the core, and the core's
expiry computation evaluated at that invalid instant returns false for
every stored `expiresAt`. -/
theorem malformed_override_not_rejected (s : String) (wall : Int)
    (hs : ¬s = "") (hp : parseIntDec s = none) :
    getCurrentTime (some "1") (some s) wall = none ∧
    ∀ e : Option Int,
      isPasteExpiredDate e (getCurrentTime (some "1") (some s) wall) = false := by
  have h1 : getCurrentTime (some "1") (some s) wall = none := by
    simp [getCurrentTime, hs, hp, jsDateOfMs]
  refine ⟨h1, ?_⟩
  intro e
  rw [h1]
  cases e <;> rfl

/-- Witness for C9 (amended): the override `"abc"` at wall clock `7`. -/
theorem malformed_override_not_rejected_witness :
    getCurrentTime (some "1") (some "abc") 7 = none ∧
    ∀ e : Option Int,
      isPasteExpiredDate e (getCurrentTime (some "1") (some "abc") 7) = false :=
  malformed_override_not_rejected "abc" 7 (by decide) (by decide)
